import Mathlib

/-!
# Verification of the nssbd-server request handlers

Shallow embedding of `src/index.js`: an Express/MongoDB CRUD service over
three collections (users, usersMessages, guards).  JSON values are modelled
by the inductive `JVal`; a JS object is an association list of fields where
a missing key plays the role of `undefined` (distinct from JSON `null`,
which is `JVal.vNull`).  Each route handler becomes a pure Lean function
from the current collection contents and the request data to a response
(HTTP status plus optional body payload) and the new collection contents.
`new Date()` timestamps are supplied as an explicit `now : Int` parameter
and dates are the constructor `JVal.vDate`.  MongoDB `updateOne` updates the
first matching document, which `updateFirst` mirrors.
-/

/-- A JSON-ish runtime value as the JS code manipulates it.  `vDate v` is a
`Date` object built from value `v` (`new Date()` at time `t` is
`vDate (vNum t)`). -/
inductive JVal where
  | vNull : JVal
  | vBool (b : Bool) : JVal
  | vNum (n : Int) : JVal
  | vStr (s : String) : JVal
  | vArr (xs : List JVal) : JVal
  | vObj (fields : List (String × JVal)) : JVal
  | vDate (v : JVal) : JVal
  deriving Repr

mutual

/-- Structural decidable equality on `JVal` (the automatic derivation does
not handle the nested lists). -/
def JVal.decEq : (a b : JVal) → Decidable (a = b)
  | .vNull, .vNull => .isTrue rfl
  | .vBool a, .vBool b =>
      if h : a = b then .isTrue (by rw [h]) else .isFalse (by simp [h])
  | .vNum a, .vNum b =>
      if h : a = b then .isTrue (by rw [h]) else .isFalse (by simp [h])
  | .vStr a, .vStr b =>
      if h : a = b then .isTrue (by rw [h]) else .isFalse (by simp [h])
  | .vDate a, .vDate b =>
      match JVal.decEq a b with
      | .isTrue h => .isTrue (by rw [h])
      | .isFalse h => .isFalse (by simp [h])
  | .vArr xs, .vArr ys =>
      match JVal.decEqList xs ys with
      | .isTrue h => .isTrue (by rw [h])
      | .isFalse h => .isFalse (by simp [h])
  | .vObj fs, .vObj gs =>
      match JVal.decEqFields fs gs with
      | .isTrue h => .isTrue (by rw [h])
      | .isFalse h => .isFalse (by simp [h])
  | .vNull, .vBool _ => .isFalse fun h => JVal.noConfusion h
  | .vNull, .vNum _ => .isFalse fun h => JVal.noConfusion h
  | .vNull, .vStr _ => .isFalse fun h => JVal.noConfusion h
  | .vNull, .vArr _ => .isFalse fun h => JVal.noConfusion h
  | .vNull, .vObj _ => .isFalse fun h => JVal.noConfusion h
  | .vNull, .vDate _ => .isFalse fun h => JVal.noConfusion h
  | .vBool _, .vNull => .isFalse fun h => JVal.noConfusion h
  | .vBool _, .vNum _ => .isFalse fun h => JVal.noConfusion h
  | .vBool _, .vStr _ => .isFalse fun h => JVal.noConfusion h
  | .vBool _, .vArr _ => .isFalse fun h => JVal.noConfusion h
  | .vBool _, .vObj _ => .isFalse fun h => JVal.noConfusion h
  | .vBool _, .vDate _ => .isFalse fun h => JVal.noConfusion h
  | .vNum _, .vNull => .isFalse fun h => JVal.noConfusion h
  | .vNum _, .vBool _ => .isFalse fun h => JVal.noConfusion h
  | .vNum _, .vStr _ => .isFalse fun h => JVal.noConfusion h
  | .vNum _, .vArr _ => .isFalse fun h => JVal.noConfusion h
  | .vNum _, .vObj _ => .isFalse fun h => JVal.noConfusion h
  | .vNum _, .vDate _ => .isFalse fun h => JVal.noConfusion h
  | .vStr _, .vNull => .isFalse fun h => JVal.noConfusion h
  | .vStr _, .vBool _ => .isFalse fun h => JVal.noConfusion h
  | .vStr _, .vNum _ => .isFalse fun h => JVal.noConfusion h
  | .vStr _, .vArr _ => .isFalse fun h => JVal.noConfusion h
  | .vStr _, .vObj _ => .isFalse fun h => JVal.noConfusion h
  | .vStr _, .vDate _ => .isFalse fun h => JVal.noConfusion h
  | .vArr _, .vNull => .isFalse fun h => JVal.noConfusion h
  | .vArr _, .vBool _ => .isFalse fun h => JVal.noConfusion h
  | .vArr _, .vNum _ => .isFalse fun h => JVal.noConfusion h
  | .vArr _, .vStr _ => .isFalse fun h => JVal.noConfusion h
  | .vArr _, .vObj _ => .isFalse fun h => JVal.noConfusion h
  | .vArr _, .vDate _ => .isFalse fun h => JVal.noConfusion h
  | .vObj _, .vNull => .isFalse fun h => JVal.noConfusion h
  | .vObj _, .vBool _ => .isFalse fun h => JVal.noConfusion h
  | .vObj _, .vNum _ => .isFalse fun h => JVal.noConfusion h
  | .vObj _, .vStr _ => .isFalse fun h => JVal.noConfusion h
  | .vObj _, .vArr _ => .isFalse fun h => JVal.noConfusion h
  | .vObj _, .vDate _ => .isFalse fun h => JVal.noConfusion h
  | .vDate _, .vNull => .isFalse fun h => JVal.noConfusion h
  | .vDate _, .vBool _ => .isFalse fun h => JVal.noConfusion h
  | .vDate _, .vNum _ => .isFalse fun h => JVal.noConfusion h
  | .vDate _, .vStr _ => .isFalse fun h => JVal.noConfusion h
  | .vDate _, .vArr _ => .isFalse fun h => JVal.noConfusion h
  | .vDate _, .vObj _ => .isFalse fun h => JVal.noConfusion h

/-- Decidable equality of `JVal` lists. -/
def JVal.decEqList : (xs ys : List JVal) → Decidable (xs = ys)
  | [], [] => .isTrue rfl
  | [], _ :: _ => .isFalse fun h => List.noConfusion h
  | _ :: _, [] => .isFalse fun h => List.noConfusion h
  | x :: xs, y :: ys =>
      match JVal.decEq x y with
      | .isFalse h => .isFalse (by simp [h])
      | .isTrue h1 =>
        match JVal.decEqList xs ys with
        | .isTrue h2 => .isTrue (by rw [h1, h2])
        | .isFalse h2 => .isFalse (by simp [h2])

/-- Decidable equality of field lists. -/
def JVal.decEqFields : (fs gs : List (String × JVal)) → Decidable (fs = gs)
  | [], [] => .isTrue rfl
  | [], _ :: _ => .isFalse fun h => List.noConfusion h
  | _ :: _, [] => .isFalse fun h => List.noConfusion h
  | (k, v) :: fs, (k2, v2) :: gs =>
      if hk : k = k2 then
        match JVal.decEq v v2 with
        | .isFalse h => .isFalse (by simp [h])
        | .isTrue h1 =>
          match JVal.decEqFields fs gs with
          | .isTrue h2 => .isTrue (by rw [hk, h1, h2])
          | .isFalse h2 => .isFalse (by simp [h2])
      else .isFalse (by simp [hk])

end

instance : DecidableEq JVal := JVal.decEq

/-- A JS object: association list of fields.  A key that is absent models
`undefined`. -/
abbrev JObj := List (String × JVal)

/-- JS truthiness of a defined value. -/
def truthy : JVal → Bool
  | .vNull => false
  | .vBool b => b
  | .vNum n => n != 0
  | .vStr s => s != ""
  | .vArr _ => true
  | .vObj _ => true
  | .vDate _ => true

/-- JS truthiness of a possibly-undefined value (`undefined` is falsy). -/
def truthyOpt : Option JVal → Bool
  | none => false
  | some v => truthy v

/-- Property read `o.k`: the first binding of key `k`, `none` = `undefined`. -/
def getF (o : JObj) (k : String) : Option JVal :=
  (o.find? (fun p => p.1 == k)).map (fun p => p.2)

/-- Property write `o.k = v` (also a field of an object spread / `$set`):
overwrites the first binding of `k` in place, or appends the binding. -/
def setF (o : JObj) (k : String) (v : JVal) : JObj :=
  match o with
  | [] => [(k, v)]
  | p :: rest => if p.1 == k then (k, v) :: rest else p :: setF rest k v

/-- Property removal `delete o.k`. -/
def delF (o : JObj) (k : String) : JObj :=
  o.filter (fun p => p.1 != k)

/-- Apply every binding of `u`, in order, onto `o` (MongoDB `$set` with
document `u`, or the JS spread `\x7b...o, ...u\x7d`). -/
def setAll (o : JObj) (u : JObj) : JObj :=
  u.foldl (fun acc p => setF acc p.1 p.2) o

/-- MongoDB `updateOne`: rewrite the first document matching `p` with `f`. -/
def updateFirst (p : JObj → Bool) (f : JObj → JObj) : List JObj → List JObj
  | [] => []
  | d :: rest => if p d then f d :: rest else d :: updateFirst p f rest

/-- JS `a || b` where `a` may be `undefined`: the first operand when truthy,
otherwise the second. -/
def jsOr (a : Option JVal) (b : JVal) : JVal :=
  match a with
  | some v => if truthy v then v else b
  | none => b

/-- `typeof v === "number"` on a possibly-undefined value. -/
def isNumOpt : Option JVal → Bool
  | some (.vNum _) => true
  | _ => false

/-- `v && typeof v === "string"` on a possibly-undefined value: a truthy
string. -/
def isTruthyStrOpt : Option JVal → Bool
  | some (.vStr s) => s != ""
  | _ => false

/-- Property read `t.k` on an arbitrary value: `undefined` unless `t` is an
object carrying the key.  (JS would throw on `null`/`undefined` receivers;
no claim exercises that path.) -/
def jprop : JVal → String → Option JVal
  | .vObj fs, k => (fs.find? (fun p => p.1 == k)).map (fun p => p.2)
  | _, _ => none

/-- Helper for building object literals whose field value may be
`undefined`: such a field is omitted (JSON serialization and the store
driver drop it either way). -/
def ofOpt (k : String) : Option JVal → JObj
  | some v => [(k, v)]
  | none => []

/-- The BSON `ObjectId` constructor accepts a 24-character hex string or a
12-character string; anything else throws. -/
def validObjectId (s : String) : Bool :=
  (s.length == 24 && s.data.all (fun c =>
    c.isDigit || ('a' ≤ c && c ≤ 'f') || ('A' ≤ c && c ≤ 'F'))) || s.length == 12

/-- `findOne(\x7b email: v \x7d)` filter where `v` comes from a request body.
An `undefined` query value is serialized as `null` by the driver, and a
`null` query matches documents whose field is `null` or missing; any other
value matches exactly. -/
def matchesEmailQ (q : Option JVal) (u : JObj) : Bool :=
  match q with
  | none => getF u "email" == some JVal.vNull || (getF u "email").isNone
  | some .vNull => getF u "email" == some JVal.vNull || (getF u "email").isNone
  | some v => getF u "email" == some v

/-- `findOne(\x7b _id: new ObjectId(id) \x7d)` filter: stored `_id`s are kept
as their hex string. -/
def matchesId (id : String) (d : JObj) : Bool :=
  getF d "_id" == some (.vStr id)

/-- MongoDB `updateOne(filter, \x7b $set: doc \x7d)` on the first matching
document.  Returns `(matchedCount, newState)`, or `none` when the write
raises — here only when `$set` tries to change the immutable `_id`. -/
def updateOneSet (p : JObj → Bool) (doc : JObj) (l : List JObj) :
    Option (Nat × List JObj) :=
  match l.find? p with
  | none => some (0, l)
  | some d =>
      match getF doc "_id" with
      | some v =>
          if getF d "_id" == some v then
            some (1, updateFirst p (fun u => setAll u doc) l)
          else none
      | none => some (1, updateFirst p (fun u => setAll u doc) l)

/-- MongoDB `updateOne(filter, \x7b $push: \x7b field: x \x7d, $set: \x7b
updatedAt: upd \x7d \x7d)` on the first matching document: append `x` at the
end of the array field (created as a one-element array when missing).
`none` when the write raises (`$push` onto a non-array field). -/
def updateOnePush (p : JObj → Bool) (field : String) (x : JVal) (upd : JVal)
    (l : List JObj) : Option (Nat × List JObj) :=
  match l.find? p with
  | none => some (0, l)
  | some d =>
      match getF d field with
      | none =>
          some (1, updateFirst p
            (fun g => setF (setF g field (.vArr [x])) "updatedAt" upd) l)
      | some (.vArr xs) =>
          some (1, updateFirst p
            (fun g => setF (setF g field (.vArr (xs ++ [x]))) "updatedAt" upd) l)
      | some _ => none

/-- The projection `\x7b password: 0, firebaseUID: 0 \x7d` used by
`GET /users`. -/
def projectUser (u : JObj) : JObj :=
  u.filter (fun p => p.1 != "password" && p.1 != "firebaseUID")

/-- The destructuring redaction `const \x7b password, firebaseUID,
...userData \x7d = user` used by the other user-returning handlers. -/
def redactUser (u : JObj) : JObj :=
  u.filter (fun p => p.1 != "password" && p.1 != "firebaseUID")

/-- `GET /users` (src/index.js:45-75): admin-only list of all users with
sensitive fields projected away.  Absent requesting user is answered with
404, non-admin with 403. -/
def getUsers (users : List JObj) (emailQ : Option String) :
    Nat × Option (List JObj) :=
  match emailQ with
  | none => (400, none)
  | some email =>
    if email == "" then (400, none)
    else
      match users.find? (fun u => getF u "email" == some (.vStr email)) with
      | none => (404, none)
      | some requestingUser =>
        if !truthyOpt (getF requestingUser "isAdmin") then (403, none)
        else (200, some (users.map projectUser))

/-- `GET /users/:email` (src/index.js:78-94): unauthenticated single-user
fetch, redacted. -/
def getUserByEmail (users : List JObj) (email : String) : Nat × Option JObj :=
  match users.find? (fun u => getF u "email" == some (.vStr email)) with
  | none => (404, none)
  | some user => (200, some (redactUser user))

/-- `POST /users` (src/index.js:97-129): create a user.  `newId` is the
store-generated `_id` (attached unless the body already carries one),
`now` the request timestamp. -/
def postUsers (users : List JObj) (body : JObj) (now : Int) (newId : String) :
    (Nat × Option JObj) × List JObj :=
  if !truthyOpt (getF body "email") then ((400, none), users)
  else
    match users.find? (matchesEmailQ (getF body "email")) with
    | some _ => ((400, none), users)
    | none =>
      let newUser :=
        setF (setF (setF (setF (setF body
          "isAdmin" (jsOr (getF body "isAdmin") (.vBool false)))
          "emailVerified" (.vBool false))
          "createdAt" (.vDate (.vNum now)))
          "updatedAt" (.vDate (.vNum now)))
          "lastLogin" (.vDate (.vNum now))
      let inserted :=
        if (getF newUser "_id").isNone then setF newUser "_id" (.vStr newId)
        else newUser
      ((201, some (redactUser inserted)), users ++ [inserted])

/-- `PATCH /users/:email` (src/index.js:132-165): generic user update.  The
email/isAdmin guard is the truthiness test `if (updateData.email ||
updateData.isAdmin)` from the source. -/
def patchUsersEmail (users : List JObj) (email : String) (body : JObj)
    (now : Int) : (Nat × Option JObj) × List JObj :=
  if truthyOpt (getF body "email") || truthyOpt (getF body "isAdmin") then
    ((403, none), users)
  else
    let pred := fun u => getF u "email" == some (JVal.vStr email)
    let setDoc := setF body "updatedAt" (.vDate (.vNum now))
    match updateOneSet pred setDoc users with
    | none => ((500, none), users)
    | some (matched, users2) =>
      if matched == 0 then ((404, none), users)
      else
        match users2.find? pred with
        | none => ((500, none), users2)
        | some updatedUser => ((200, some (redactUser updatedUser)), users2)

/-- `PATCH /users/admin/:id` (src/index.js:168-206): flip a user's isAdmin.
The boolean type check runs first, then the requester lookup, then the
`new ObjectId(id)` construction (whose failure the catch turns into 500). -/
def patchUsersAdmin (users : List JObj) (id : String) (body : JObj)
    (now : Int) : (Nat × Option JObj) × List JObj :=
  match getF body "isAdmin" with
  | some (.vBool b) =>
    match users.find? (matchesEmailQ (getF body "requestingAdminEmail")) with
    | none => ((403, none), users)
    | some adminUser =>
      if !truthyOpt (getF adminUser "isAdmin") then ((403, none), users)
      else if !validObjectId id then ((500, none), users)
      else
        let setDoc : JObj :=
          [("isAdmin", JVal.vBool b), ("updatedAt", JVal.vDate (.vNum now))]
        match updateOneSet (matchesId id) setDoc users with
        | none => ((500, none), users)
        | some (matched, users2) =>
          if matched == 0 then ((404, none), users)
          else
            match users2.find? (matchesId id) with
            | none => ((500, none), users2)
            | some updatedUser =>
                ((200, some (redactUser updatedUser)), users2)
  | _ => ((400, none), users)

/-- `PATCH /users-messages/:id` (src/index.js:325-374): admin update of a
message's status/isRead.  The admin email comes from the body; the
`new ObjectId(id)` construction happens after the empty-update check. -/
def patchUsersMessages (users msgs : List JObj) (id : String) (body : JObj)
    (now : Int) : (Nat × Option JObj) × List JObj :=
  if !truthyOpt (getF body "email") then ((400, none), msgs)
  else
    match users.find? (matchesEmailQ (getF body "email")) with
    | none => ((403, none), msgs)
    | some adminUser =>
      if !truthyOpt (getF adminUser "isAdmin") then ((403, none), msgs)
      else
        let status := getF body "status"
        let isRead := getF body "isRead"
        let upd0 : JObj := [("updatedAt", JVal.vDate (.vNum now))]
        let upd1 :=
          if isTruthyStrOpt status then setF upd0 "status" (status.getD .vNull)
          else upd0
        let upd2 :=
          match isRead with
          | some (.vBool r) => setF upd1 "isRead" (.vBool r)
          | _ => upd1
        if status.isNone && isRead.isNone then ((400, none), msgs)
        else if !validObjectId id then ((500, none), msgs)
        else
          match updateOneSet (matchesId id) upd2 msgs with
          | none => ((500, none), msgs)
          | some (matched, msgs2) =>
            if matched == 0 then ((404, none), msgs)
            else ((200, msgs2.find? (matchesId id)), msgs2)

/-- Authorization result of the shared guard-route helper. -/
inductive Verify where
  | ok : Verify
  | fail (status : Nat) (message : String) : Verify
  deriving DecidableEq, Repr

/-- `verifyAdmin` (src/index.js:413-422): shared admin check for the guard
routes, from the `email` query parameter. -/
def verifyAdmin (users : List JObj) (email : Option String) : Verify :=
  match email with
  | none => .fail 400 "Admin email query param is required"
  | some e =>
    if e == "" then .fail 400 "Admin email query param is required"
    else
      match users.find? (fun u => getF u "email" == some (.vStr e)) with
      | none => .fail 403 "Admin privileges required"
      | some adminUser =>
        if !truthyOpt (getF adminUser "isAdmin") then
          .fail 403 "Admin privileges required"
        else .ok

/-- `GET /guards` (src/index.js:425-439). -/
def getGuards (users guards : List JObj) (emailQ : Option String) :
    Nat × Option (List JObj) :=
  match verifyAdmin users emailQ with
  | .fail st _ => (st, none)
  | .ok => (200, some guards)

/-- `GET /guards/:id` (src/index.js:442-461). -/
def getGuardById (users guards : List JObj) (id : String)
    (emailQ : Option String) : Nat × Option JObj :=
  match verifyAdmin users emailQ with
  | .fail st _ => (st, none)
  | .ok =>
    if !validObjectId id then (500, none)
    else
      match guards.find? (matchesId id) with
      | none => (404, none)
      | some guard => (200, some guard)

/-- Seed-transaction normalization in `POST /guards`
(src/index.js:496-501). -/
def normSeedTxn (now : Int) (t : JVal) : JVal :=
  .vObj (ofOpt "type" (jprop t "type") ++ ofOpt "amount" (jprop t "amount") ++
    [("date", match jprop t "date" with
        | some d => if truthy d then .vDate d else .vDate (.vNum now)
        | none => .vDate (.vNum now)),
     ("note", jsOr (jprop t "note") .vNull)])

/-- Seed-presence normalization in `POST /guards` (src/index.js:502-505). -/
def normSeedPres (now : Int) (p : JVal) : JVal :=
  .vObj [("date", match jprop p "date" with
      | some d => if truthy d then .vDate d else .vDate (.vNum now)
      | none => .vDate (.vNum now)),
    ("status", jsOr (jprop p "status") (.vStr "absent"))]

/-- `POST /guards` (src/index.js:464-518): create a guard.  Seed lists
default to `[]` when the body omits them; non-array seeds become `[]`. -/
def postGuards (users guards : List JObj) (emailQ : Option String)
    (body : JObj) (now : Int) (newId : String) :
    (Nat × Option JObj) × List JObj :=
  match verifyAdmin users emailQ with
  | .fail st _ => ((st, none), guards)
  | .ok =>
    let name := getF body "name"
    let phone := getF body "phone"
    let nid := getF body "nid"
    let dutyPlace := getF body "dutyPlace"
    let dutyTime := getF body "dutyTime"
    if !truthyOpt name || !truthyOpt phone || !truthyOpt nid ||
        !truthyOpt dutyPlace || !truthyOpt dutyTime then
      ((400, none), guards)
    else
      let newGuard : JObj :=
        [("name", name.getD .vNull), ("phone", phone.getD .vNull),
         ("nid", nid.getD .vNull),
         ("address", jsOr (getF body "address") .vNull),
         ("joinDate", match getF body "joinDate" with
            | some d => if truthy d then .vDate d else .vDate (.vNum now)
            | none => .vDate (.vNum now)),
         ("dutyPlace", dutyPlace.getD .vNull),
         ("dutyTime", dutyTime.getD .vNull),
         ("transactions",
            match (getF body "initialTransactions").getD (.vArr []) with
            | .vArr ts => .vArr (ts.map (normSeedTxn now))
            | _ => .vArr []),
         ("presence",
            match (getF body "initialPresence").getD (.vArr []) with
            | .vArr ps => .vArr (ps.map (normSeedPres now))
            | _ => .vArr []),
         ("createdAt", .vDate (.vNum now)), ("updatedAt", .vDate (.vNum now))]
      let inserted := setF newGuard "_id" (.vStr newId)
      ((201, some inserted), guards ++ [inserted])

/-- `PATCH /guards/:id` (src/index.js:521-550): update static guard fields.
`transactions` and `presence` are deleted from the payload before the
`$set`. -/
def patchGuards (users guards : List JObj) (id : String)
    (emailQ : Option String) (body : JObj) (now : Int) :
    (Nat × Option JObj) × List JObj :=
  match verifyAdmin users emailQ with
  | .fail st _ => ((st, none), guards)
  | .ok =>
    let updateFields :=
      setF (delF (delF body "transactions") "presence")
        "updatedAt" (.vDate (.vNum now))
    if !validObjectId id then ((500, none), guards)
    else
      match updateOneSet (matchesId id) updateFields guards with
      | none => ((500, none), guards)
      | some (matched, guards2) =>
        if matched == 0 then ((404, none), guards)
        else ((200, guards2.find? (matchesId id)), guards2)

/-- The normalized transaction document built by
`POST /guards/:id/transactions` (src/index.js:567-572): date defaults to
now, note defaults to null. -/
def normBodyTxn (body : JObj) (now : Int) : JVal :=
  .vObj
    [("type", (getF body "type").getD .vNull),
     ("amount", (getF body "amount").getD .vNull),
     ("date", match getF body "date" with
        | some d => if truthy d then .vDate d else .vDate (.vNum now)
        | none => .vDate (.vNum now)),
     ("note", jsOr (getF body "note") .vNull)]

/-- `POST /guards/:id/transactions` (src/index.js:553-592): append one
normalized transaction. -/
def postGuardTxn (users guards : List JObj) (id : String)
    (emailQ : Option String) (body : JObj) (now : Int) :
    (Nat × Option JObj) × List JObj :=
  match verifyAdmin users emailQ with
  | .fail st _ => ((st, none), guards)
  | .ok =>
    let type := getF body "type"
    let amount := getF body "amount"
    if !truthyOpt type || !isNumOpt amount then ((400, none), guards)
    else
      let txn := normBodyTxn body now
      if !validObjectId id then ((500, none), guards)
      else
        match updateOnePush (matchesId id) "transactions" txn
            (.vDate (.vNum now)) guards with
        | none => ((500, none), guards)
        | some (matched, guards2) =>
          if matched == 0 then ((404, none), guards)
          else ((200, guards2.find? (matchesId id)), guards2)

/-- `POST /guards/:id/presence` (src/index.js:595-632): append one presence
entry. -/
def postGuardPresence (users guards : List JObj) (id : String)
    (emailQ : Option String) (body : JObj) (now : Int) :
    (Nat × Option JObj) × List JObj :=
  match verifyAdmin users emailQ with
  | .fail st _ => ((st, none), guards)
  | .ok =>
    let date := getF body "date"
    let status := getF body "status"
    if !truthyOpt date || !truthyOpt status then ((400, none), guards)
    else
      let entry := JVal.vObj
        [("date", .vDate (date.getD .vNull)), ("status", status.getD .vNull)]
      if !validObjectId id then ((500, none), guards)
      else
        match updateOnePush (matchesId id) "presence" entry
            (.vDate (.vNum now)) guards with
        | none => ((500, none), guards)
        | some (matched, guards2) =>
          if matched == 0 then ((404, none), guards)
          else ((200, guards2.find? (matchesId id)), guards2)

/-- `GET /guards/:id/transactions` (src/index.js:635-653): return the
transaction log (`guard.transactions || []`).  The store projection
`\x7b transactions: 1 \x7d` does not change the value read. -/
def getGuardTxns (users guards : List JObj) (id : String)
    (emailQ : Option String) : Nat × Option JVal :=
  match verifyAdmin users emailQ with
  | .fail st _ => (st, none)
  | .ok =>
    if !validObjectId id then (500, none)
    else
      match guards.find? (matchesId id) with
      | none => (404, none)
      | some guard => (200, some (jsOr (getF guard "transactions") (.vArr [])))

/-- `GET /guards/:id/presence` (src/index.js:656-674). -/
def getGuardPresence (users guards : List JObj) (id : String)
    (emailQ : Option String) : Nat × Option JVal :=
  match verifyAdmin users emailQ with
  | .fail st _ => (st, none)
  | .ok =>
    if !validObjectId id then (500, none)
    else
      match guards.find? (matchesId id) with
      | none => (404, none)
      | some guard => (200, some (jsOr (getF guard "presence") (.vArr [])))

/-! ## Basic lemmas about the object and store operations -/

theorem getF_cons (p : String × JVal) (rest : JObj) (k : String) :
    getF (p :: rest) k = if p.1 = k then some p.2 else getF rest k := by
  by_cases h : p.1 = k
  · rw [getF, List.find?_cons_of_pos _ (by simp [h]), if_pos h]; rfl
  · rw [getF, List.find?_cons_of_neg _ (by simp [h]), if_neg h]; rfl

theorem setF_cons (p : String × JVal) (rest : JObj) (k : String) (v : JVal) :
    setF (p :: rest) k v =
      if p.1 = k then (k, v) :: rest else p :: setF rest k v := by
  by_cases h : p.1 = k <;> simp [setF, h]

theorem getF_setF_self (o : JObj) (k : String) (v : JVal) :
    getF (setF o k v) k = some v := by
  induction o with
  | nil => show getF [(k, v)] k = some v; simp [getF_cons]
  | cons p rest ih =>
    rw [setF_cons]
    by_cases h : p.1 = k
    · rw [if_pos h, getF_cons]; simp
    · rw [if_neg h, getF_cons, if_neg h]; exact ih

theorem getF_setF_ne (o : JObj) {k k' : String} (v : JVal) (h : k' ≠ k) :
    getF (setF o k v) k' = getF o k' := by
  induction o with
  | nil =>
    show getF [(k, v)] k' = getF [] k'
    simp [getF_cons, Ne.symm h, getF]
  | cons p rest ih =>
    rw [setF_cons]
    by_cases hp : p.1 = k
    · simp [getF_cons, Ne.symm h, hp, ih]
    · simp [getF_cons, hp, ih]

theorem mem_setF {p : String × JVal} {o : JObj} {k : String} {v : JVal}
    (h : p ∈ setF o k v) : p.1 = k ∨ p ∈ o := by
  induction o with
  | nil =>
    simp [setF] at h
    subst h; exact Or.inl rfl
  | cons q rest ih =>
    by_cases hqk : q.1 = k
    · simp only [setF] at h
      rw [if_pos (by simp [hqk])] at h
      rcases List.mem_cons.mp h with h1 | h2
      · subst h1; exact Or.inl rfl
      · exact Or.inr (List.mem_cons_of_mem _ h2)
    · simp only [setF] at h
      rw [if_neg (by simp [hqk])] at h
      rcases List.mem_cons.mp h with h1 | h2
      · subst h1; exact Or.inr (List.mem_cons_self _ _)
      · rcases ih h2 with h3 | h3
        · exact Or.inl h3
        · exact Or.inr (List.mem_cons_of_mem _ h3)

theorem mem_delF {p : String × JVal} {o : JObj} {k : String}
    (h : p ∈ delF o k) : p ∈ o ∧ p.1 ≠ k := by
  unfold delF at h
  have := List.mem_filter.mp h
  refine ⟨this.1, ?_⟩
  simpa using this.2

theorem getF_setAll_of_no_key {k : String} :
    ∀ (u o : JObj), (∀ p ∈ u, p.1 ≠ k) → getF (setAll o u) k = getF o k := by
  intro u
  induction u with
  | nil => intro o _; rfl
  | cons q rest ih =>
    intro o h
    have hq : q.1 ≠ k := h q (List.mem_cons_self _ _)
    have hrest : ∀ p ∈ rest, p.1 ≠ k :=
      fun p hp => h p (List.mem_cons_of_mem _ hp)
    show getF (setAll (setF o q.1 q.2) rest) k = getF o k
    rw [ih _ hrest, getF_setF_ne o q.2 (Ne.symm hq)]

theorem updateFirst_eq_of_find?_none {p : JObj → Bool} {f : JObj → JObj} :
    ∀ {l : List JObj}, l.find? p = none → updateFirst p f l = l := by
  intro l
  induction l with
  | nil => intro _; rfl
  | cons d rest ih =>
    intro h
    rw [List.find?_cons] at h
    cases hpd : p d with
    | true => rw [hpd] at h; exact absurd h (by simp)
    | false =>
      rw [hpd] at h
      simp only [updateFirst, hpd, Bool.false_eq_true, if_false]
      rw [ih h]

theorem find?_updateFirst {p : JObj → Bool} {f : JObj → JObj}
    {l : List JObj} {d : JObj} (h : l.find? p = some d)
    (hf : p (f d) = true) :
    (updateFirst p f l).find? p = some (f d) := by
  induction l with
  | nil => simp at h
  | cons e rest ih =>
    rw [List.find?_cons] at h
    cases hpe : p e with
    | true =>
      rw [hpe] at h
      injection h with h; subst h
      simp [updateFirst, hpe, List.find?_cons, hf]
    | false =>
      rw [hpe] at h
      simp only [updateFirst, hpe, Bool.false_eq_true, if_false]
      rw [List.find?_cons]
      rw [hpe]
      exact ih h

theorem map_updateFirst {α : Type} {g : JObj → α} {p : JObj → Bool}
    {f : JObj → JObj} (h : ∀ d, p d = true → g (f d) = g d) :
    ∀ l : List JObj, (updateFirst p f l).map g = l.map g := by
  intro l
  induction l with
  | nil => rfl
  | cons d rest ih =>
    cases hpd : p d with
    | true => simp [updateFirst, hpd, h d hpd]
    | false => simp [updateFirst, hpd, ih]

theorem find?_append_of_none {α : Type} {p : α → Bool} {l1 l2 : List α}
    (h : l1.find? p = none) : (l1 ++ l2).find? p = l2.find? p := by
  induction l1 with
  | nil => rfl
  | cons a rest ih =>
    rw [List.find?_cons] at h
    cases hpa : p a with
    | true => rw [hpa] at h; exact absurd h (by simp)
    | false =>
      rw [hpa] at h
      simpa [List.find?_cons, hpa] using ih h

theorem redactUser_cons (p : String × JVal) (rest : JObj) :
    redactUser (p :: rest) =
      if p.1 = "password" ∨ p.1 = "firebaseUID" then redactUser rest
      else p :: redactUser rest := by
  unfold redactUser
  rw [List.filter_cons]
  by_cases h1 : p.1 = "password"
  · simp [h1]
  · by_cases h2 : p.1 = "firebaseUID" <;> simp [h1, h2]

theorem getF_redactUser (u : JObj) {k : String} (h1 : k ≠ "password")
    (h2 : k ≠ "firebaseUID") : getF (redactUser u) k = getF u k := by
  induction u with
  | nil => rfl
  | cons p rest ih =>
    rw [redactUser_cons]
    by_cases hp : p.1 = "password" ∨ p.1 = "firebaseUID"
    · have hk : ¬ p.1 = k := by
        rcases hp with hp | hp
        · rw [hp]; exact Ne.symm h1
        · rw [hp]; exact Ne.symm h2
      rw [if_pos hp, getF_cons, if_neg hk, ih]
    · rw [if_neg hp, getF_cons, getF_cons]
      by_cases hpk : p.1 = k
      · rw [if_pos hpk, if_pos hpk]
      · rw [if_neg hpk, if_neg hpk, ih]

theorem getF_redactUser_password (u : JObj) :
    getF (redactUser u) "password" = none := by
  have h : (redactUser u).find? (fun p => p.1 == "password") = none := by
    rw [List.find?_eq_none]
    intro p hp
    have h2 := (List.mem_filter.mp hp).2
    simp only [Bool.and_eq_true, bne_iff_ne] at h2
    simp [h2.1]
  simp [getF, h]

theorem getF_redactUser_firebaseUID (u : JObj) :
    getF (redactUser u) "firebaseUID" = none := by
  have h : (redactUser u).find? (fun p => p.1 == "firebaseUID") = none := by
    rw [List.find?_eq_none]
    intro p hp
    have h2 := (List.mem_filter.mp hp).2
    simp only [Bool.and_eq_true, bne_iff_ne] at h2
    simp [h2.2]
  simp [getF, h]

theorem getF_projectUser (u : JObj) {k : String} (h1 : k ≠ "password")
    (h2 : k ≠ "firebaseUID") : getF (projectUser u) k = getF u k :=
  getF_redactUser u h1 h2

theorem getF_projectUser_password (u : JObj) :
    getF (projectUser u) "password" = none :=
  getF_redactUser_password u

theorem getF_projectUser_firebaseUID (u : JObj) :
    getF (projectUser u) "firebaseUID" = none :=
  getF_redactUser_firebaseUID u

theorem jsOr_of_falsy {a : Option JVal} (b : JVal) (h : truthyOpt a = false) :
    jsOr a b = b := by
  cases a with
  | none => rfl
  | some v => simp [truthyOpt] at h; simp [jsOr, h]

theorem map_getF_updateOneSet {k : String} {p : JObj → Bool} {doc : JObj}
    {l l2 : List JObj} {n : Nat} (hdoc : ∀ q ∈ doc, q.1 ≠ k)
    (h : updateOneSet p doc l = some (n, l2)) :
    l2.map (fun d => getF d k) = l.map (fun d => getF d k) := by
  have hpres : ∀ d, p d = true → getF (setAll d doc) k = getF d k :=
    fun d _ => getF_setAll_of_no_key doc d hdoc
  unfold updateOneSet at h
  split at h
  · injection h with h
    rw [((Prod.mk.injEq _ _ _ _).mp h).2]
  · split at h
    · split at h
      · injection h with h
        rw [← ((Prod.mk.injEq _ _ _ _).mp h).2]
        exact map_updateFirst hpres l
      · exact absurd h (by simp)
    · injection h with h
      rw [← ((Prod.mk.injEq _ _ _ _).mp h).2]
      exact map_updateFirst hpres l

/-- Frame helper for `PATCH /guards/:id`: the deleted keys never reach the
`$set` document, so the per-guard value of that key is untouched whatever
branch the handler takes. -/
theorem patchGuards_state_preserves (users guards : List JObj) (id : String)
    (emailQ : Option String) (body : JObj) (now : Int) {k : String}
    (hk : k = "transactions" ∨ k = "presence") :
    (patchGuards users guards id emailQ body now).2.map (fun g => getF g k)
      = guards.map (fun g => getF g k) := by
  have hkeys : ∀ q ∈ setF (delF (delF body "transactions") "presence")
      "updatedAt" (JVal.vDate (.vNum now)), q.1 ≠ k := by
    intro q hq
    rcases mem_setF hq with h | h
    · rw [h]; rcases hk with hk | hk <;> rw [hk] <;> decide
    · have h1 := mem_delF h
      have h2 := mem_delF h1.1
      rcases hk with hk | hk
      · rw [hk]; exact h2.2
      · rw [hk]; exact h1.2
  simp only [patchGuards]
  split
  · rfl
  · split
    · rfl
    · split
      · rfl
      · rename_i matched guards2 hup
        split
        · rfl
        · exact map_getF_updateOneSet hkeys hup

/-! ## Claim theorems -/

/-- C1, counterexample: with a non-empty email query parameter naming no
stored user, GET /users answers 404, not the 403 the claim demands. -/
theorem c1_counterexample :
    getUsers [] (some "ghost@x.co") = (404, none) ∧
    (getUsers [] (some "ghost@x.co")).1 ≠ 403 := by decide

/-- C1 (amended): for GET /users with a non-empty email query parameter, an
absent requesting user yields 404 — the handler does not use the
403-on-absence convention of the shared guard-route Authorizer — a present
non-admin yields 403, and a present admin yields 200 with all users
projected. -/
theorem c1_getUsers_behavior (users : List JObj) (email : String)
    (hne : email ≠ "") :
    (users.find? (fun u => getF u "email" == some (.vStr email)) = none →
       getUsers users (some email) = (404, none)) ∧
    (∀ ru, users.find? (fun u => getF u "email" == some (.vStr email)) = some ru →
       truthyOpt (getF ru "isAdmin") = false →
       getUsers users (some email) = (403, none)) ∧
    (∀ ru, users.find? (fun u => getF u "email" == some (.vStr email)) = some ru →
       truthyOpt (getF ru "isAdmin") = true →
       getUsers users (some email) = (200, some (users.map projectUser))) := by
  refine ⟨?_, ?_, ?_⟩
  · intro h
    simp only [getUsers]
    rw [if_neg (by simp [hne]), h]
  · intro ru h hadm
    simp only [getUsers]
    rw [if_neg (by simp [hne]), h]
    simp [hadm]
  · intro ru h hadm
    simp only [getUsers]
    rw [if_neg (by simp [hne]), h]
    simp [hadm]

/-- C1 witness: a stored admin lists all users. -/
theorem c1_witness :
    getUsers [[("email", JVal.vStr "alice@x.co"), ("isAdmin", JVal.vBool true),
               ("password", JVal.vStr "pw")]] (some "alice@x.co")
      = (200, some ([[("email", JVal.vStr "alice@x.co"),
          ("isAdmin", JVal.vBool true), ("password", JVal.vStr "pw")]].map
            projectUser)) :=
  (c1_getUsers_behavior
      [[("email", JVal.vStr "alice@x.co"), ("isAdmin", JVal.vBool true),
        ("password", JVal.vStr "pw")]] "alice@x.co" (by decide)).2.2
    [("email", JVal.vStr "alice@x.co"), ("isAdmin", JVal.vBool true),
     ("password", JVal.vStr "pw")] (by decide) (by decide)

/-- C2, counterexample: a payload whose isAdmin value is `false` slips past
the truthiness filter of PATCH /users/:email — the request succeeds with
200 and the stored isAdmin flag is overwritten, refuting "any value,
including false". -/
theorem c2_counterexample :
    (patchUsersEmail
        [[("email", JVal.vStr "alice@x.co"), ("isAdmin", JVal.vBool true)]]
        "alice@x.co" [("isAdmin", JVal.vBool false)] 5).1.1 = 200 ∧
    (patchUsersEmail
        [[("email", JVal.vStr "alice@x.co"), ("isAdmin", JVal.vBool true)]]
        "alice@x.co" [("isAdmin", JVal.vBool false)] 5).2
      ≠ [[("email", JVal.vStr "alice@x.co"), ("isAdmin", JVal.vBool true)]] := by
  decide

/-- C2 (amended): PATCH /users/:email returns 403 and leaves the users
collection unchanged whenever the payload's email or isAdmin value is
truthy; a falsy value (false, "", 0, null) passes the filter and is merged
into the stored record. -/
theorem c2_patch_forbidden (users : List JObj) (email : String) (body : JObj)
    (now : Int)
    (h : truthyOpt (getF body "email") = true ∨
         truthyOpt (getF body "isAdmin") = true) :
    patchUsersEmail users email body now = ((403, none), users) := by
  simp only [patchUsersEmail]
  rcases h with h | h <;> simp [h]

/-- C2 witness: a truthy isAdmin payload is rejected with 403. -/
theorem c2_witness :
    patchUsersEmail [] "alice@x.co" [("isAdmin", JVal.vBool true)] 0
      = ((403, none), []) :=
  c2_patch_forbidden [] "alice@x.co" [("isAdmin", JVal.vBool true)] 0
    (Or.inr (by decide))

/-- C4: for every guard id, caller and update payload — including payloads
carrying `transactions` or `presence` keys — PATCH /guards/:id leaves every
stored guard's transactions and presence values unchanged: the handler
deletes those keys from the payload before the `$set` merge. -/
theorem c4_patch_guards_frame (users guards : List JObj) (id : String)
    (emailQ : Option String) (body : JObj) (now : Int) :
    ((patchGuards users guards id emailQ body now).2.map
        (fun g => getF g "transactions")
      = guards.map (fun g => getF g "transactions")) ∧
    ((patchGuards users guards id emailQ body now).2.map
        (fun g => getF g "presence")
      = guards.map (fun g => getF g "presence")) :=
  ⟨patchGuards_state_preserves users guards id emailQ body now (Or.inl rfl),
   patchGuards_state_preserves users guards id emailQ body now (Or.inr rfl)⟩

/-- C7: POST /users with a payload whose email is already stored returns
400 and leaves the users collection unchanged, whatever the other payload
fields hold. -/
theorem c7_post_users_conflict (users : List JObj) (body : JObj) (now : Int)
    (newId : String) (e : String)
    (hbody : getF body "email" = some (.vStr e))
    (hex : ∃ u ∈ users, getF u "email" = some (.vStr e)) :
    postUsers users body now newId = ((400, none), users) := by
  by_cases he : e = ""
  · simp only [postUsers]
    rw [if_pos (by simp [hbody, truthyOpt, truthy, he])]
  · have htr : truthyOpt (getF body "email") = true := by
      rw [hbody]; simp [truthyOpt, truthy, he]
    simp only [postUsers]
    rw [if_neg (by simp [htr])]
    obtain ⟨u, hu, hue⟩ := hex
    cases hfind : users.find? (matchesEmailQ (getF body "email")) with
    | some w => rfl
    | none =>
      exfalso
      have hnone := List.find?_eq_none.mp hfind u hu
      apply hnone
      rw [hbody]
      simp [matchesEmailQ, hue]

/-- C7 witness: re-registering a stored email is refused. -/
theorem c7_witness :
    postUsers [[("email", JVal.vStr "alice@x.co")]]
        [("email", JVal.vStr "alice@x.co"), ("name", JVal.vStr "Eve")] 3
        "cccccccccccccccccccccccc"
      = ((400, none), [[("email", JVal.vStr "alice@x.co")]]) :=
  c7_post_users_conflict _ _ 3 _ "alice@x.co" (by decide)
    ⟨[("email", JVal.vStr "alice@x.co")], by decide, by decide⟩

/-- C10: for PATCH /users/admin/:id, a boolean isAdmin with no
requestingAdminEmail in the body is answered 403 — the handler looks the
absent email up directly and treats the no-match as lack of privilege, not
as the shared Authorizer's 400 — and the isAdmin type check precedes
authorization, so a non-boolean isAdmin yields 400 whatever the caller's
privilege. -/
theorem c10_admin_patch_order :
    (∀ (users : List JObj) (id : String) (body : JObj) (now : Int) (b : Bool),
       getF body "isAdmin" = some (.vBool b) →
       getF body "requestingAdminEmail" = none →
       (∀ u ∈ users, ∃ s, getF u "email" = some (.vStr s)) →
       patchUsersAdmin users id body now = ((403, none), users)) ∧
    (∀ (users : List JObj) (id : String) (body : JObj) (now : Int),
       (∀ b, getF body "isAdmin" ≠ some (.vBool b)) →
       patchUsersAdmin users id body now = ((400, none), users)) := by
  constructor
  · intro users id body now b hb hre hemails
    have hfind : users.find? (matchesEmailQ none) = none := by
      rw [List.find?_eq_none]
      intro u hu
      obtain ⟨s, hs⟩ := hemails u hu
      simp [matchesEmailQ, hs]
    simp only [patchUsersAdmin]
    rw [hb, hre, hfind]
  · intro users id body now hnb
    simp only [patchUsersAdmin]

/-- C10 witness: missing requesting email gives 403; non-boolean isAdmin
gives 400 for the same non-admin store. -/
theorem c10_witness :
    patchUsersAdmin
        [[("email", JVal.vStr "bob@x.co"), ("isAdmin", JVal.vBool false)]]
        "aaaaaaaaaaaaaaaaaaaaaaaa" [("isAdmin", JVal.vBool true)] 0
      = ((403, none),
         [[("email", JVal.vStr "bob@x.co"), ("isAdmin", JVal.vBool false)]]) ∧
    patchUsersAdmin
        [[("email", JVal.vStr "bob@x.co"), ("isAdmin", JVal.vBool false)]]
        "aaaaaaaaaaaaaaaaaaaaaaaa" [("isAdmin", JVal.vNum 1)] 0
      = ((400, none),
         [[("email", JVal.vStr "bob@x.co"), ("isAdmin", JVal.vBool false)]]) :=
  ⟨c10_admin_patch_order.1 _ _ _ 0 true (by decide) (by decide)
      (by
        intro u hu
        simp only [List.mem_singleton] at hu
        subst hu
        exact ⟨"bob@x.co", by decide⟩),
   c10_admin_patch_order.2 _ _ _ 0 (by decide)⟩

/-- C5: every guard endpoint delegates to the shared verifyAdmin before any
guard-data access: a missing (or empty) email query parameter fails 400,
an unknown or non-admin email fails 403, and in every failure the response
is computed from the users collection alone — the guards collection is
returned unchanged whatever it holds; an admin caller creating a guard
with the required fields and no seed lists gets 201 with empty
transactions and presence sequences. -/
theorem c5_guard_admin_gate :
    (∀ users, verifyAdmin users none
        = .fail 400 "Admin email query param is required") ∧
    (∀ users, verifyAdmin users (some "")
        = .fail 400 "Admin email query param is required") ∧
    (∀ (users : List JObj) (e : String), e ≠ "" →
       users.find? (fun u => getF u "email" == some (.vStr e)) = none →
       verifyAdmin users (some e) = .fail 403 "Admin privileges required") ∧
    (∀ (users : List JObj) (e : String) au, e ≠ "" →
       users.find? (fun u => getF u "email" == some (.vStr e)) = some au →
       truthyOpt (getF au "isAdmin") = false →
       verifyAdmin users (some e) = .fail 403 "Admin privileges required") ∧
    (∀ (users guards : List JObj) (emailQ : Option String) (st : Nat)
        (m : String), verifyAdmin users emailQ = .fail st m →
       getGuards users guards emailQ = (st, none) ∧
       (∀ id, getGuardById users guards id emailQ = (st, none)) ∧
       (∀ body now newId,
          postGuards users guards emailQ body now newId = ((st, none), guards)) ∧
       (∀ id body now,
          patchGuards users guards id emailQ body now = ((st, none), guards)) ∧
       (∀ id body now,
          postGuardTxn users guards id emailQ body now = ((st, none), guards)) ∧
       (∀ id body now,
          postGuardPresence users guards id emailQ body now
            = ((st, none), guards)) ∧
       (∀ id, getGuardTxns users guards id emailQ = (st, none)) ∧
       (∀ id, getGuardPresence users guards id emailQ = (st, none))) ∧
    (∀ (users guards : List JObj) (emailQ : Option String) (body : JObj)
        (now : Int) (newId : String),
       verifyAdmin users emailQ = .ok →
       truthyOpt (getF body "name") = true →
       truthyOpt (getF body "phone") = true →
       truthyOpt (getF body "nid") = true →
       truthyOpt (getF body "dutyPlace") = true →
       truthyOpt (getF body "dutyTime") = true →
       getF body "initialTransactions" = none →
       getF body "initialPresence" = none →
       ∃ g, postGuards users guards emailQ body now newId
           = ((201, some g), guards ++ [g]) ∧
         getF g "transactions" = some (.vArr []) ∧
         getF g "presence" = some (.vArr [])) := by
  refine ⟨fun users => rfl, fun users => rfl, ?_, ?_, ?_, ?_⟩
  · intro users e he hfind
    simp only [verifyAdmin]
    rw [if_neg (by simp [he]), hfind]
  · intro users e au he hfind hadm
    simp only [verifyAdmin]
    rw [if_neg (by simp [he]), hfind]
    simp [hadm]
  · intro users guards emailQ st m hver
    refine ⟨?_, ?_, ?_, ?_, ?_, ?_, ?_, ?_⟩
    · simp only [getGuards]; rw [hver]
    · intro id; simp only [getGuardById]; rw [hver]
    · intro body now newId; simp only [postGuards]; rw [hver]
    · intro id body now; simp only [patchGuards]; rw [hver]
    · intro id body now; simp only [postGuardTxn]; rw [hver]
    · intro id body now; simp only [postGuardPresence]; rw [hver]
    · intro id; simp only [getGuardTxns]; rw [hver]
    · intro id; simp only [getGuardPresence]; rw [hver]
  · intro users guards emailQ body now newId hver h1 h2 h3 h4 h5 hit hip
    simp only [postGuards]
    rw [hver]
    rw [if_neg (by simp [h1, h2, h3, h4, h5])]
    refine ⟨_, rfl, ?_, ?_⟩
    · rw [getF_setF_ne _ _ (by decide)]
      simp [getF_cons, hit]
    · rw [getF_setF_ne _ _ (by decide)]
      simp [getF_cons, hip]

/-- C5 witness: a non-admin caller is refused guard creation with 403, and
an admin caller creating a guard with only the required fields gets 201
with empty transactions and presence. -/
theorem c5_witness :
    (postGuards [[("email", JVal.vStr "bob@x.co"), ("isAdmin", JVal.vBool false)]]
        [] (some "bob@x.co")
        [("name", JVal.vStr "A"), ("phone", JVal.vStr "1"),
         ("nid", JVal.vStr "2"), ("dutyPlace", JVal.vStr "Gate1"),
         ("dutyTime", JVal.vStr "Day")] 9 "dddddddddddddddddddddddd"
      = ((403, none), [])) ∧
    (∃ g, postGuards
        [[("email", JVal.vStr "alice@x.co"), ("isAdmin", JVal.vBool true)]]
        [] (some "alice@x.co")
        [("name", JVal.vStr "A"), ("phone", JVal.vStr "1"),
         ("nid", JVal.vStr "2"), ("dutyPlace", JVal.vStr "Gate1"),
         ("dutyTime", JVal.vStr "Day")] 9 "dddddddddddddddddddddddd"
      = ((201, some g), [] ++ [g]) ∧
      getF g "transactions" = some (.vArr []) ∧
      getF g "presence" = some (.vArr [])) :=
  ⟨((c5_guard_admin_gate.2.2.2.2.1
      [[("email", JVal.vStr "bob@x.co"), ("isAdmin", JVal.vBool false)]]
      [] (some "bob@x.co") 403 "Admin privileges required"
      (by decide)).2.2.1
      [("name", JVal.vStr "A"), ("phone", JVal.vStr "1"),
       ("nid", JVal.vStr "2"), ("dutyPlace", JVal.vStr "Gate1"),
       ("dutyTime", JVal.vStr "Day")] 9 "dddddddddddddddddddddddd"),
   c5_guard_admin_gate.2.2.2.2.2
      [[("email", JVal.vStr "alice@x.co"), ("isAdmin", JVal.vBool true)]]
      [] (some "alice@x.co")
      [("name", JVal.vStr "A"), ("phone", JVal.vStr "1"),
       ("nid", JVal.vStr "2"), ("dutyPlace", JVal.vStr "Gate1"),
       ("dutyTime", JVal.vStr "Day")] 9 "dddddddddddddddddddddddd"
      (by decide) (by decide) (by decide) (by decide) (by decide) (by decide)
      (by decide) (by decide)⟩

/-- C3: the two redaction mechanisms remove exactly the password and
firebaseUID fields and preserve every other field, and every user-shaped
response body of GET /users, GET /users/:email, POST /users,
PATCH /users/:email and PATCH /users/admin/:id is such a redaction of a
stored record. -/
theorem c3_sanitized_responses :
    (∀ (u : JObj) (k : String), k ≠ "password" → k ≠ "firebaseUID" →
       getF (redactUser u) k = getF u k ∧ getF (projectUser u) k = getF u k) ∧
    (∀ u : JObj, getF (redactUser u) "password" = none ∧
       getF (redactUser u) "firebaseUID" = none ∧
       getF (projectUser u) "password" = none ∧
       getF (projectUser u) "firebaseUID" = none) ∧
    (∀ users emailQ st out, getUsers users emailQ = (st, some out) →
       out = users.map projectUser) ∧
    (∀ users email st u, getUserByEmail users email = (st, some u) →
       ∃ w ∈ users, u = redactUser w) ∧
    (∀ users body now newId st u users2,
       postUsers users body now newId = ((st, some u), users2) →
       ∃ w ∈ users2, u = redactUser w) ∧
    (∀ users email body now st u users2,
       patchUsersEmail users email body now = ((st, some u), users2) →
       ∃ w ∈ users2, u = redactUser w) ∧
    (∀ users id body now st u users2,
       patchUsersAdmin users id body now = ((st, some u), users2) →
       ∃ w ∈ users2, u = redactUser w) := by
  refine ⟨?_, ?_, ?_, ?_, ?_, ?_, ?_⟩
  · intro u k h1 h2
    exact ⟨getF_redactUser u h1 h2, getF_projectUser u h1 h2⟩
  · intro u
    exact ⟨getF_redactUser_password u, getF_redactUser_firebaseUID u,
      getF_projectUser_password u, getF_projectUser_firebaseUID u⟩
  · intro users emailQ st out h
    simp only [getUsers] at h
    repeat' split at h
    all_goals first
      | (exfalso; simp at h; done)
      | (simp only [Prod.mk.injEq, Option.some.injEq] at h
         exact h.2.symm)
  · intro users email st u h
    simp only [getUserByEmail] at h
    repeat' split at h
    all_goals first
      | (exfalso; simp at h; done)
      | (rename_i w hw
         simp only [Prod.mk.injEq, Option.some.injEq] at h
         exact ⟨w, List.mem_of_find?_eq_some hw, h.2.symm⟩)
  · intro users body now newId st u users2 h
    simp only [postUsers] at h
    repeat' split at h
    all_goals first
      | (exfalso; simp at h; done)
      | (simp only [Prod.mk.injEq, Option.some.injEq] at h
         refine ⟨_, ?_, h.1.2.symm⟩
         rw [← h.2]
         exact List.mem_append_right _ (List.mem_singleton_self _))
  · intro users email body now st u users2 h
    simp only [patchUsersEmail] at h
    repeat' split at h
    all_goals first
      | (exfalso; simp at h; done)
      | (rename_i w hw
         simp only [Prod.mk.injEq, Option.some.injEq] at h
         refine ⟨w, ?_, h.1.2.symm⟩
         rw [← h.2]
         exact List.mem_of_find?_eq_some hw)
  · intro users id body now st u users2 h
    simp only [patchUsersAdmin] at h
    repeat' split at h
    all_goals first
      | (exfalso; simp at h; done)
      | (rename_i w hw
         simp only [Prod.mk.injEq, Option.some.injEq] at h
         refine ⟨w, ?_, h.1.2.symm⟩
         rw [← h.2]
         exact List.mem_of_find?_eq_some hw)

/-- C3 witness: redaction keeps the email field, drops the password, and
the single-user GET returns the redaction of the stored record. -/
theorem c3_witness :
    (getF (redactUser [("email", JVal.vStr "bob@x.co"),
        ("password", JVal.vStr "p")]) "email"
      = getF [("email", JVal.vStr "bob@x.co"), ("password", JVal.vStr "p")]
          "email") ∧
    (getF (redactUser [("email", JVal.vStr "bob@x.co"),
        ("password", JVal.vStr "p")]) "password" = none) ∧
    (∃ w ∈ ([[("email", JVal.vStr "bob@x.co"), ("password", JVal.vStr "p")]] :
        List JObj), [("email", JVal.vStr "bob@x.co")] = redactUser w) :=
  ⟨(c3_sanitized_responses.1 _ "email" (by decide) (by decide)).1,
   (c3_sanitized_responses.2.1 _).1,
   c3_sanitized_responses.2.2.2.1
     [[("email", JVal.vStr "bob@x.co"), ("password", JVal.vStr "p")]]
     "bob@x.co" 200 [("email", JVal.vStr "bob@x.co")] (by decide)⟩

/-- Shape of one successful transaction append: the handler answers 200
with the updated guard and rewrites exactly the first guard matching the
id, appending the normalized transaction at the end of its sequence. -/
theorem postGuardTxn_success (users guards : List JObj) (id : String)
    (emailQ : Option String) (body : JObj) (now : Int) (g : JObj)
    (ts : List JVal)
    (hver : verifyAdmin users emailQ = .ok)
    (hid : validObjectId id = true)
    (hfind : guards.find? (matchesId id) = some g)
    (hts : getF g "transactions" = some (.vArr ts))
    (hbt : truthyOpt (getF body "type") = true)
    (hba : isNumOpt (getF body "amount") = true) :
    postGuardTxn users guards id emailQ body now
      = ((200, some (setF (setF g "transactions"
            (.vArr (ts ++ [normBodyTxn body now])))
            "updatedAt" (.vDate (.vNum now)))),
         updateFirst (matchesId id)
           (fun gg => setF (setF gg "transactions"
              (.vArr (ts ++ [normBodyTxn body now])))
              "updatedAt" (.vDate (.vNum now))) guards) := by
  have hpg : matchesId id g = true := List.find?_some hfind
  have hpred : matchesId id
      (setF (setF g "transactions" (.vArr (ts ++ [normBodyTxn body now])))
        "updatedAt" (.vDate (.vNum now))) = true := by
    unfold matchesId at hpg ⊢
    rw [getF_setF_ne _ _ (by decide), getF_setF_ne _ _ (by decide)]
    exact hpg
  simp only [postGuardTxn, hver]
  rw [if_neg (by simp [hbt, hba]), if_neg (by simp [hid])]
  unfold updateOnePush
  simp only [hfind, hts]
  rw [if_neg (by decide)]
  rw [find?_updateFirst hfind hpred]

/-- Updating fields other than `_id` keeps a document matching its id
filter. -/
theorem matchesId_setF (id : String) (g : JObj) {k1 k2 : String}
    (v1 v2 : JVal) (h1 : "_id" ≠ k1) (h2 : "_id" ≠ k2)
    (hg : matchesId id g = true) :
    matchesId id (setF (setF g k1 v1) k2 v2) = true := by
  unfold matchesId at hg ⊢
  rw [getF_setF_ne _ _ h2, getF_setF_ne _ _ h1]
  exact hg

/-- C6: with an admin caller and a guard whose transactions sequence is
`ts`, two successful POST /guards/:id/transactions appends extend the
sequence to `ts ++ [t1, t2]` — length `ts.length + 2`, the two normalized
entries at the end in append order — while a body lacking a truthy type or
a numeric amount fails 400 and leaves the guards unchanged. -/
theorem c6_two_appends (users guards : List JObj) (id : String)
    (emailQ : Option String) (b1 b2 : JObj) (now1 now2 : Int) (g : JObj)
    (ts : List JVal)
    (hver : verifyAdmin users emailQ = .ok)
    (hid : validObjectId id = true)
    (hfind : guards.find? (matchesId id) = some g)
    (hts : getF g "transactions" = some (.vArr ts))
    (hb1t : truthyOpt (getF b1 "type") = true)
    (hb1a : isNumOpt (getF b1 "amount") = true)
    (hb2t : truthyOpt (getF b2 "type") = true)
    (hb2a : isNumOpt (getF b2 "amount") = true) :
    (∀ (body : JObj) (now : Int),
       truthyOpt (getF body "type") = false ∨
         isNumOpt (getF body "amount") = false →
       postGuardTxn users guards id emailQ body now = ((400, none), guards)) ∧
    (∃ g2, (postGuardTxn users (postGuardTxn users guards id emailQ b1 now1).2
          id emailQ b2 now2).2.find? (matchesId id) = some g2 ∧
       getF g2 "transactions"
         = some (.vArr (ts ++ [normBodyTxn b1 now1, normBodyTxn b2 now2])) ∧
       (ts ++ [normBodyTxn b1 now1, normBodyTxn b2 now2]).length
         = ts.length + 2) := by
  constructor
  · intro body now h
    simp only [postGuardTxn, hver]
    rw [if_pos (by rcases h with h | h <;> simp [h])]
  · have h1 := postGuardTxn_success users guards id emailQ b1 now1 g ts hver
      hid hfind hts hb1t hb1a
    have hfind1 : (postGuardTxn users guards id emailQ b1 now1).2.find?
        (matchesId id)
        = some (setF (setF g "transactions"
            (.vArr (ts ++ [normBodyTxn b1 now1])))
            "updatedAt" (.vDate (.vNum now1))) := by
      rw [h1]
      exact find?_updateFirst hfind
        (matchesId_setF id g _ _ (by decide) (by decide)
          (List.find?_some hfind))
    have hts1 : getF (setF (setF g "transactions"
        (.vArr (ts ++ [normBodyTxn b1 now1])))
        "updatedAt" (.vDate (.vNum now1))) "transactions"
        = some (.vArr (ts ++ [normBodyTxn b1 now1])) := by
      rw [getF_setF_ne _ _ (by decide), getF_setF_self]
    have h2s := postGuardTxn_success users
      (postGuardTxn users guards id emailQ b1 now1).2 id emailQ b2 now2 _
      (ts ++ [normBodyTxn b1 now1]) hver hid hfind1 hts1 hb2t hb2a
    refine ⟨setF (setF (setF (setF g "transactions"
        (.vArr (ts ++ [normBodyTxn b1 now1]))) "updatedAt"
        (.vDate (.vNum now1))) "transactions"
        (.vArr ((ts ++ [normBodyTxn b1 now1]) ++ [normBodyTxn b2 now2])))
        "updatedAt" (.vDate (.vNum now2)), ?_, ?_, ?_⟩
    · rw [h2s]
      exact find?_updateFirst hfind1
        (matchesId_setF id _ _ _ (by decide) (by decide)
          (List.find?_some hfind1))
    · rw [getF_setF_ne _ _ (by decide), getF_setF_self]
      simp [List.append_assoc]
    · simp

/-- C6 witness: two concrete appends to a guard with an empty transaction
log leave exactly the two normalized entries, in order. -/
theorem c6_witness :
    ∃ g2, (postGuardTxn
        [[("email", JVal.vStr "alice@x.co"), ("isAdmin", JVal.vBool true)]]
        (postGuardTxn
          [[("email", JVal.vStr "alice@x.co"), ("isAdmin", JVal.vBool true)]]
          [[("_id", JVal.vStr "eeeeeeeeeeeeeeeeeeeeeeee"),
            ("name", JVal.vStr "G"), ("transactions", JVal.vArr []),
            ("presence", JVal.vArr [])]]
          "eeeeeeeeeeeeeeeeeeeeeeee" (some "alice@x.co")
          [("type", JVal.vStr "credit"), ("amount", JVal.vNum 100)] 1).2
        "eeeeeeeeeeeeeeeeeeeeeeee" (some "alice@x.co")
        [("type", JVal.vStr "debit"), ("amount", JVal.vNum 40)] 2).2.find?
          (matchesId "eeeeeeeeeeeeeeeeeeeeeeee") = some g2 ∧
      getF g2 "transactions" = some (.vArr (([] : List JVal) ++
        [normBodyTxn [("type", JVal.vStr "credit"), ("amount", JVal.vNum 100)] 1,
         normBodyTxn [("type", JVal.vStr "debit"), ("amount", JVal.vNum 40)] 2])) ∧
      (([] : List JVal) ++
        [normBodyTxn [("type", JVal.vStr "credit"), ("amount", JVal.vNum 100)] 1,
         normBodyTxn [("type", JVal.vStr "debit"), ("amount", JVal.vNum 40)] 2]).length
        = ([] : List JVal).length + 2 :=
  (c6_two_appends
    [[("email", JVal.vStr "alice@x.co"), ("isAdmin", JVal.vBool true)]]
    [[("_id", JVal.vStr "eeeeeeeeeeeeeeeeeeeeeeee"), ("name", JVal.vStr "G"),
      ("transactions", JVal.vArr []), ("presence", JVal.vArr [])]]
    "eeeeeeeeeeeeeeeeeeeeeeee" (some "alice@x.co")
    [("type", JVal.vStr "credit"), ("amount", JVal.vNum 100)]
    [("type", JVal.vStr "debit"), ("amount", JVal.vNum 40)] 1 2
    [("_id", JVal.vStr "eeeeeeeeeeeeeeeeeeeeeeee"), ("name", JVal.vStr "G"),
     ("transactions", JVal.vArr []), ("presence", JVal.vArr [])] []
    (by decide) (by decide) (by decide) (by decide) (by decide) (by decide)
    (by decide) (by decide)).2

/-- C8, counterexample: a creation payload carrying isAdmin=true is echoed
into the stored record (`user.isAdmin || false`), so the subsequent GET
returns isAdmin=true, refuting "isAdmin field is false" after an arbitrary
successful POST. -/
theorem c8_counterexample :
    (postUsers [] [("email", JVal.vStr "eve@x.co"), ("isAdmin", JVal.vBool true)]
        7 "cccccccccccccccccccccc11").1.1 = 201 ∧
    (getUserByEmail (postUsers []
        [("email", JVal.vStr "eve@x.co"), ("isAdmin", JVal.vBool true)]
        7 "cccccccccccccccccccccc11").2 "eve@x.co").1 = 200 ∧
    ((getUserByEmail (postUsers []
        [("email", JVal.vStr "eve@x.co"), ("isAdmin", JVal.vBool true)]
        7 "cccccccccccccccccccccc11").2 "eve@x.co").2.map
          (fun u => getF u "isAdmin"))
      = some (some (JVal.vBool true)) := by decide

/-- Shape of one successful user creation: 201, the redacted created record
as the body, and the record appended to the collection, with the defaulted
fields in place. -/
theorem postUsers_success (users : List JObj) (body : JObj) (now : Int)
    (newId : String)
    (htr : truthyOpt (getF body "email") = true)
    (hfind : users.find? (matchesEmailQ (getF body "email")) = none) :
    ∃ ins, postUsers users body now newId
        = ((201, some (redactUser ins)), users ++ [ins]) ∧
      getF ins "email" = getF body "email" ∧
      getF ins "isAdmin" = some (jsOr (getF body "isAdmin") (.vBool false)) ∧
      getF ins "emailVerified" = some (.vBool false) := by
  simp only [postUsers, hfind]
  rw [if_neg (by simp [htr])]
  refine ⟨_, rfl, ?_, ?_, ?_⟩
  · split
    · rw [getF_setF_ne _ _ (by decide), getF_setF_ne _ _ (by decide),
        getF_setF_ne _ _ (by decide), getF_setF_ne _ _ (by decide),
        getF_setF_ne _ _ (by decide), getF_setF_ne _ _ (by decide)]
    · rw [getF_setF_ne _ _ (by decide), getF_setF_ne _ _ (by decide),
        getF_setF_ne _ _ (by decide), getF_setF_ne _ _ (by decide),
        getF_setF_ne _ _ (by decide)]
  · split
    · rw [getF_setF_ne _ _ (by decide), getF_setF_ne _ _ (by decide),
        getF_setF_ne _ _ (by decide), getF_setF_ne _ _ (by decide),
        getF_setF_ne _ _ (by decide), getF_setF_self]
    · rw [getF_setF_ne _ _ (by decide), getF_setF_ne _ _ (by decide),
        getF_setF_ne _ _ (by decide), getF_setF_ne _ _ (by decide),
        getF_setF_self]
  · split
    · rw [getF_setF_ne _ _ (by decide), getF_setF_ne _ _ (by decide),
        getF_setF_ne _ _ (by decide), getF_setF_ne _ _ (by decide),
        getF_setF_self]
    · rw [getF_setF_ne _ _ (by decide), getF_setF_ne _ _ (by decide),
        getF_setF_ne _ _ (by decide), getF_setF_self]

/-- C8 (amended): for an email E not present in Users, GET /users/:E
returns 404; after a successful POST /users whose payload email is E and
whose payload carries no truthy isAdmin, GET /users/:E returns 200 with
isAdmin=false and emailVerified=false (a truthy payload isAdmin would be
echoed into the record instead). -/
theorem c8_get_after_post (users : List JObj) (body : JObj) (now : Int)
    (newId : String) (e : String) (he : e ≠ "")
    (habs : ∀ u ∈ users, getF u "email" ≠ some (.vStr e))
    (hbody : getF body "email" = some (.vStr e))
    (hadm : truthyOpt (getF body "isAdmin") = false) :
    getUserByEmail users e = (404, none) ∧
    (postUsers users body now newId).1.1 = 201 ∧
    ∃ u, getUserByEmail (postUsers users body now newId).2 e = (200, some u) ∧
      getF u "isAdmin" = some (.vBool false) ∧
      getF u "emailVerified" = some (.vBool false) := by
  have hfind0 : users.find? (fun u => getF u "email" == some (.vStr e))
      = none := by
    rw [List.find?_eq_none]
    intro u hu
    simp [habs u hu]
  have htr : truthyOpt (getF body "email") = true := by
    rw [hbody]; simp [truthyOpt, truthy, he]
  have hfindM : users.find? (matchesEmailQ (getF body "email")) = none := by
    rw [hbody, List.find?_eq_none]
    intro u hu
    simp [matchesEmailQ, habs u hu]
  obtain ⟨ins, hpost, hemail, hisAdmin, hev⟩ :=
    postUsers_success users body now newId htr hfindM
  refine ⟨?_, ?_, ?_⟩
  · simp only [getUserByEmail, hfind0]
  · rw [hpost]
  · refine ⟨redactUser ins, ?_, ?_, ?_⟩
    · have hfind2 : ((users ++ [ins]).find?
          (fun u => getF u "email" == some (.vStr e))) = some ins := by
        rw [find?_append_of_none hfind0]
        exact List.find?_cons_of_pos _ (by rw [hemail, hbody]; simp)
      rw [hpost]
      simp only [getUserByEmail, hfind2]
    · rw [getF_redactUser _ (by decide) (by decide), hisAdmin,
        jsOr_of_falsy _ hadm]
    · rw [getF_redactUser _ (by decide) (by decide), hev]

/-- C8 witness: a fresh email round-trips with the defaulted flags. -/
theorem c8_witness :
    getUserByEmail [] "new@x.co" = (404, none) ∧
    (postUsers [] [("email", JVal.vStr "new@x.co")] 4
        "ffffffffffffffffffffffff").1.1 = 201 ∧
    ∃ u, getUserByEmail (postUsers [] [("email", JVal.vStr "new@x.co")] 4
        "ffffffffffffffffffffffff").2 "new@x.co" = (200, some u) ∧
      getF u "isAdmin" = some (.vBool false) ∧
      getF u "emailVerified" = some (.vBool false) :=
  c8_get_after_post [] [("email", JVal.vStr "new@x.co")] 4
    "ffffffffffffffffffffffff" "new@x.co" (by decide)
    (by intro u hu; simp at hu) (by decide) (by decide)

/-- C9: on every endpoint that constructs an ObjectId from the :id path
parameter (PATCH /users/admin/:id, PATCH /users-messages/:id and the five
/guards/:id routes), a malformed id makes the constructor throw once the
earlier body/authorization checks have passed, and the catch block answers
500 InternalError — not 404 and not 400 — with the store unchanged. -/
theorem c9_malformed_id_500 :
    (∀ (users : List JObj) (id : String) (body : JObj) (now : Int)
        (b : Bool) (au : JObj), validObjectId id = false →
       getF body "isAdmin" = some (.vBool b) →
       users.find? (matchesEmailQ (getF body "requestingAdminEmail")) = some au →
       truthyOpt (getF au "isAdmin") = true →
       patchUsersAdmin users id body now = ((500, none), users)) ∧
    (∀ (users msgs : List JObj) (id : String) (body : JObj) (now : Int)
        (au : JObj), validObjectId id = false →
       truthyOpt (getF body "email") = true →
       users.find? (matchesEmailQ (getF body "email")) = some au →
       truthyOpt (getF au "isAdmin") = true →
       ((getF body "status").isNone = false ∨
        (getF body "isRead").isNone = false) →
       patchUsersMessages users msgs id body now = ((500, none), msgs)) ∧
    (∀ (users guards : List JObj) (id : String) (emailQ : Option String),
       validObjectId id = false → verifyAdmin users emailQ = .ok →
       getGuardById users guards id emailQ = (500, none)) ∧
    (∀ (users guards : List JObj) (id : String) (emailQ : Option String)
        (body : JObj) (now : Int),
       validObjectId id = false → verifyAdmin users emailQ = .ok →
       patchGuards users guards id emailQ body now = ((500, none), guards)) ∧
    (∀ (users guards : List JObj) (id : String) (emailQ : Option String)
        (body : JObj) (now : Int),
       validObjectId id = false → verifyAdmin users emailQ = .ok →
       truthyOpt (getF body "type") = true →
       isNumOpt (getF body "amount") = true →
       postGuardTxn users guards id emailQ body now = ((500, none), guards)) ∧
    (∀ (users guards : List JObj) (id : String) (emailQ : Option String)
        (body : JObj) (now : Int),
       validObjectId id = false → verifyAdmin users emailQ = .ok →
       truthyOpt (getF body "date") = true →
       truthyOpt (getF body "status") = true →
       postGuardPresence users guards id emailQ body now
         = ((500, none), guards)) ∧
    (∀ (users guards : List JObj) (id : String) (emailQ : Option String),
       validObjectId id = false → verifyAdmin users emailQ = .ok →
       getGuardTxns users guards id emailQ = (500, none)) ∧
    (∀ (users guards : List JObj) (id : String) (emailQ : Option String),
       validObjectId id = false → verifyAdmin users emailQ = .ok →
       getGuardPresence users guards id emailQ = (500, none)) := by
  refine ⟨?_, ?_, ?_, ?_, ?_, ?_, ?_, ?_⟩
  · intro users id body now b au hid hb hfind hadm
    simp only [patchUsersAdmin, hb, hfind]
    rw [if_neg (by simp [hadm]), if_pos (by simp [hid])]
  · intro users msgs id body now au hid hem hfind hadm hne
    simp only [patchUsersMessages, hfind]
    rw [if_neg (by simp [hem]), if_neg (by simp [hadm]),
      if_neg (by rcases hne with h | h <;> simp [h]),
      if_pos (by simp [hid])]
  · intro users guards id emailQ hid hver
    simp only [getGuardById, hver]
    rw [if_pos (by simp [hid])]
  · intro users guards id emailQ body now hid hver
    simp only [patchGuards, hver]
    rw [if_pos (by simp [hid])]
  · intro users guards id emailQ body now hid hver ht ha
    simp only [postGuardTxn, hver]
    rw [if_neg (by simp [ht, ha]), if_pos (by simp [hid])]
  · intro users guards id emailQ body now hid hver hd hs
    simp only [postGuardPresence, hver]
    rw [if_neg (by simp [hd, hs]), if_pos (by simp [hid])]
  · intro users guards id emailQ hid hver
    simp only [getGuardTxns, hver]
    rw [if_pos (by simp [hid])]
  · intro users guards id emailQ hid hver
    simp only [getGuardPresence, hver]
    rw [if_pos (by simp [hid])]

/-- C9 witness: the malformed id "zz" is answered 500 by an admin-passed
guard fetch and by an admin-passed admin-status update. -/
theorem c9_witness :
    patchUsersAdmin
        [[("email", JVal.vStr "alice@x.co"), ("isAdmin", JVal.vBool true)]]
        "zz" [("isAdmin", JVal.vBool true),
              ("requestingAdminEmail", JVal.vStr "alice@x.co")] 0
      = ((500, none),
         [[("email", JVal.vStr "alice@x.co"), ("isAdmin", JVal.vBool true)]]) ∧
    getGuardById
        [[("email", JVal.vStr "alice@x.co"), ("isAdmin", JVal.vBool true)]]
        [] "zz" (some "alice@x.co") = (500, none) :=
  ⟨c9_malformed_id_500.1
      [[("email", JVal.vStr "alice@x.co"), ("isAdmin", JVal.vBool true)]]
      "zz" [("isAdmin", JVal.vBool true),
            ("requestingAdminEmail", JVal.vStr "alice@x.co")] 0 true
      [("email", JVal.vStr "alice@x.co"), ("isAdmin", JVal.vBool true)]
      (by decide) (by decide) (by decide) (by decide),
   c9_malformed_id_500.2.2.1
      [[("email", JVal.vStr "alice@x.co"), ("isAdmin", JVal.vBool true)]]
      [] "zz" (some "alice@x.co") (by decide) (by decide)⟩
